import Mathlib

/-!
Verification of the openaikeyserver credential-issuance pipeline: a shallow
embedding of the Go source (oidc/oidc.go, handler/callback.go,
management/management.go, client/client.go, client/serviceaccount.go and the
project-listing client) together with theorems about the allow-list policy,
the CSRF state check, credential issuance and the age-based cleanup sweep.
Times are modelled as integers (epoch instants); external collaborators
(the OAuth2 token endpoint, the JWKS verifier and the resource-management
HTTP API) are modelled as explicit inputs so every definition is executable.
-/

namespace OpenAIKeyServer

/-! ## OIDC allow-list policy (oidc/oidc.go) -/

/-- Configuration of the OIDC component: `defaultProjectName`,
`allowedUsers`, `allowedDomains` (the Go pointer-to-slice fields are
modelled as immutable lists). -/
structure OIDC where
  defaultProjectName : String
  allowedUsers : List String
  allowedDomains : List String

/-- Claims of a Google ID token (struct `GoogleIDTokenClaims`). -/
structure GoogleIDTokenClaims where
  aud : String
  azp : String
  email : String
  emailVerified : Bool
  exp : Int
  iat : Int
  iss : String
  sub : String
  atHash : String
  hd : String

/-- `isUserAllowed` from oidc/oidc.go: the email is allowed if it is in the
allowed-users list; otherwise, if `strings.Split(email, "@")` has exactly
two parts, the domain part must be non-empty, equal to the `hd` claim and
listed in the allowed domains. -/
def isUserAllowed (allowedUsers allowedDomains : List String)
    (serviceAccountName hd : String) : Bool :=
  if serviceAccountName ∈ allowedUsers then
    true
  else
    match serviceAccountName.splitOn "@" with
    | [_, domain] =>
      if domain = "" ∨ domain ≠ hd then false
      else if domain ∈ allowedDomains then true
      else false
    | _ => false

/-- The domain part of an email: the second component when splitting on `"@"`
yields exactly two parts, `""` otherwise.  This is the spec's
`splitDomain`; it is used only to state properties. -/
def domainPart (email : String) : String :=
  match email.splitOn "@" with
  | [_, domain] => domain
  | _ => ""

/-! ## Token extraction and authorization (oidc/oidc.go) -/

/-- Errors of `ExtractGoogleIDToken`. -/
inductive ExtractError where
  | verifyIDTokenFailed (e : String)
  | emailNotVerified
  | userNotAllowed (email : String)
  deriving DecidableEq, Repr

/-- `ExtractGoogleIDToken` from oidc/oidc.go, with the (network-dependent)
token verification result passed in as an explicit `Except`: propagate a
verification failure; reject unverified emails; reject users failing
`isUserAllowed`; otherwise return the default project name and the email. -/
def ExtractGoogleIDToken (o : OIDC)
    (verifyResult : Except String GoogleIDTokenClaims) :
    Except ExtractError (String × String) :=
  match verifyResult with
  | .error e => .error (.verifyIDTokenFailed e)
  | .ok claims =>
    if claims.emailVerified = false then
      .error .emailNotVerified
    else if isUserAllowed o.allowedUsers o.allowedDomains
        claims.email claims.hd = false then
      .error (.userNotAllowed claims.email)
    else
      .ok (o.defaultProjectName, claims.email)

/-! ## REST client request core (client/client.go) -/

/-- Structured API error: status code and raw response body
(struct `APIError`). -/
structure APIError where
  statusCode : Nat
  message : String
  deriving DecidableEq, Repr

/-- The status-handling tail of `doRequest` in client/client.go, taking the
HTTP response already received (status code and raw body): a status
`≥ 400` yields an `APIError` wrapping the status code and the body; any
other status returns the raw body. -/
def doRequest (statusCode : Nat) (respBody : String) : Except APIError String :=
  if statusCode ≥ 400 then
    .error { statusCode := statusCode, message := respBody }
  else
    .ok respBody

/-! ## OAuth2 callback handler (handler/callback.go) -/

/-- The data of a callback request that the handler inspects: the `code`
and `state` query parameters (`""` when absent, as with Go's
`Query().Get`) and the `oauthstate` cookie value (`none` when
`r.Cookie` fails). -/
structure CallbackRequest where
  code : String
  state : String
  stateCookie : Option String

/-- Outcome of `oauth2Config.Exchange`: a `*oauth2.RetrieveError`
(provider rejected the code), any other error, or a token whose
`id_token` extra may be absent. -/
inductive ExchangeResult where
  | retrieveError
  | fatalError (e : String)
  | ok (idToken : Option String)

/-- External collaborators of the callback handler, as response functions:
the token endpoint, the OIDC token verifier, and the management layer's
key creation. -/
structure CallbackEnv where
  exchange : String → ExchangeResult
  verify : String → Except String GoogleIDTokenClaims
  createAPIKey : String → String → Except String String

/-- Externally visible side effects of the handler, in order: setting a
cookie (name, value, MaxAge) and invoking the token exchange with a code. -/
inductive Effect where
  | setCookie (name value : String) (maxAge : Int)
  | exchangeCall (code : String)
  deriving DecidableEq, Repr

/-- The handler's HTTP response. -/
inductive CallbackResponse where
  | badRequest (msg : String)
  | redirectRoot
  | serverError (msg : String)
  | htmlKey (key : String)
  deriving DecidableEq, Repr

/-- `HandleOAuthCallback` from handler/callback.go: reject a missing code
or state with a 400; reject a missing state cookie with a 400; on a
cookie/state mismatch redirect to root; on a match clear the state cookie
(`MaxAge = -1`) and exchange the code, redirecting to root on a
`RetrieveError`, then extract and verify the ID token and create the API
key, rendering the key on success.  The second component records the
side effects in program order. -/
def HandleOAuthCallback (o : OIDC) (env : CallbackEnv)
    (req : CallbackRequest) : CallbackResponse × List Effect :=
  if req.code = "" then
    (.badRequest "Authorization code is required", [])
  else if req.state = "" then
    (.badRequest "State parameter is required", [])
  else
    match req.stateCookie with
    | none => (.badRequest "State cookie not found", [])
    | some cookieVal =>
      if cookieVal ≠ req.state then
        (.redirectRoot, [])
      else
        let effs := [Effect.setCookie "oauthstate" "" (-1),
                     Effect.exchangeCall req.code]
        match env.exchange req.code with
        | .retrieveError => (.redirectRoot, effs)
        | .fatalError _ => (.serverError "Failed to exchange authorization code", effs)
        | .ok none => (.serverError "Invalid token response", effs)
        | .ok (some idToken) =>
          match ExtractGoogleIDToken o (env.verify idToken) with
          | .error _ => (.serverError "Failed to verify ID token", effs)
          | .ok (projectName, serviceAccountName) =>
            match env.createAPIKey projectName serviceAccountName with
            | .error _ => (.serverError "Failed to create API key", effs)
            | .ok key => (.htmlKey key, effs)

/-- A concrete OIDC configuration used to evaluate the handler on concrete
requests. -/
def demoOIDC : OIDC :=
  { defaultProjectName := "default-project"
    allowedUsers := ["user1@example.com"]
    allowedDomains := ["example.com"] }

/-- A concrete callback environment whose token endpoint rejects every
code with a `RetrieveError`. -/
def demoCallbackEnv : CallbackEnv :=
  { exchange := fun _ => .retrieveError
    verify := fun _ => .error "verification failure"
    createAPIKey := fun _ _ => .error "api failure" }

/-! ## Resource data model (client/serviceaccount.go, project client) -/

/-- A project: opaque ID and human-assigned name (struct `Project`; the
decorative JSON fields `object`, `created_at`, `archived_at`, `status`
are inert in the verified code paths and omitted). -/
structure Project where
  id : String
  name : String
  deriving DecidableEq, Repr

/-- The embedded API key of a service account (`api_key` object; the
decorative `object`/`name`/`created_at` fields are omitted). -/
structure ServiceAccountKey where
  value : String
  id : String
  deriving DecidableEq, Repr

/-- A service account (struct `ServiceAccount`): ID, display name,
creation timestamp in epoch seconds, and the embedded one-time-visible
API key. -/
structure ServiceAccount where
  id : String
  name : String
  createdAt : Int
  apiKey : ServiceAccountKey
  deriving DecidableEq, Repr

/-! ## Credential lifecycle management (management/management.go)

The `client.APIClient` collaborator is modelled as explicit response data:
each environment field holds the (error or success) response the external
resource API would give for the corresponding call.  Time is modelled at
seconds granularity with a single `now` instant per invocation (Go
re-reads `time.Now()` per loop iteration; the claims are about a fixed
cutoff instant). -/

/-- Responses the resource API gives to one `CleanupAPIKey` invocation:
the project lookup (`none` = not found, a normal outcome), the aggregated
service-account listing, and the per-account deletion outcome, plus the
current instant. -/
structure CleanupEnv where
  getProject : Except String (Option Project)
  listServiceAccounts : Except String (List ServiceAccount)
  deleteServiceAccount : String → Except String Unit
  now : Int

/-- The result of `CleanupAPIKey`, separating its error returns (each Go
`fmt.Errorf` site gets one constructor). -/
inductive CleanupResult where
  | getProjectError (e : String)
  | projectNotFound (name : String)
  | listError (e : String)
  | deleteError (e : String)
  | ok
  deriving DecidableEq, Repr

/-- The deletion loop of `CleanupAPIKey`: walk the listed accounts in
order; delete each whose `createdAt` is strictly before the cutoff
(`createdAt.Before(cutoff)`), aborting on the first deletion error.
Returns the IDs deleted so far (in order) and the aborting error, if
any. -/
def cleanupSweep (deleteSA : String → Except String Unit) (cutoff : Int) :
    List ServiceAccount → List String × Option String
  | [] => ([], none)
  | sa :: rest =>
    if sa.createdAt < cutoff then
      match deleteSA sa.id with
      | .error e => ([], some e)
      | .ok _ =>
        let r := cleanupSweep deleteSA cutoff rest
        (sa.id :: r.1, r.2)
    else
      cleanupSweep deleteSA cutoff rest

/-- `CleanupAPIKey` from management/management.go: resolve the project by
name (failing when absent), list its service accounts, and sweep-delete
the stale ones with cutoff `now - expiration`.  The second component is
the list of IDs actually deleted, in order. -/
def CleanupAPIKey (expiration : Int) (env : CleanupEnv)
    (projectName : String) : CleanupResult × List String :=
  match env.getProject with
  | .error e => (.getProjectError e, [])
  | .ok none => (.projectNotFound projectName, [])
  | .ok (some _) =>
    match env.listServiceAccounts with
    | .error e => (.listError e, [])
    | .ok accounts =>
      match cleanupSweep env.deleteServiceAccount (env.now - expiration)
          accounts with
      | (deleted, some e) => (.deleteError e, deleted)
      | (deleted, none) => (.ok, deleted)

/-- Responses the resource API gives to one `CreateAPIKey` invocation,
plus the current instant. -/
structure IssueEnv where
  getProject : Except String (Option Project)
  createProject : Except String Project
  createServiceAccount : String → String → Except String ServiceAccount
  now : Int

/-- One outbound resource-API call of the management layer. -/
inductive ApiCall where
  | getProjectCall (name : String)
  | createProjectCall (name : String)
  | createSACall (projectID saName : String)
  deriving DecidableEq, Repr

/-- Errors of `CreateAPIKey` (one constructor per Go `fmt.Errorf` site). -/
inductive IssueError where
  | getProjectError (e : String)
  | createProjectError (e : String)
  | createSAError (e : String)
  deriving DecidableEq, Repr

/-- `CreateAPIKey` from management/management.go: resolve the project via
`GetProject`; create it only when absent; then always create a new
service account, returning its API key value and
`expiresAt = now + expiration`.  The second component records the
outbound calls in program order. -/
def CreateAPIKey (expiration : Int) (env : IssueEnv)
    (projectName saName : String) :
    Except IssueError (String × Int) × List ApiCall :=
  match env.getProject with
  | .error e =>
    (.error (.getProjectError e), [.getProjectCall projectName])
  | .ok (some p) =>
    match env.createServiceAccount p.id saName with
    | .error e =>
      (.error (.createSAError e),
        [.getProjectCall projectName, .createSACall p.id saName])
    | .ok sa =>
      (.ok (sa.apiKey.value, env.now + expiration),
        [.getProjectCall projectName, .createSACall p.id saName])
  | .ok none =>
    match env.createProject with
    | .error e =>
      (.error (.createProjectError e),
        [.getProjectCall projectName, .createProjectCall projectName])
    | .ok p =>
      match env.createServiceAccount p.id saName with
      | .error e =>
        (.error (.createSAError e),
          [.getProjectCall projectName, .createProjectCall projectName,
           .createSACall p.id saName])
      | .ok sa =>
        (.ok (sa.apiKey.value, env.now + expiration),
          [.getProjectCall projectName, .createProjectCall projectName,
           .createSACall p.id saName])

/-! ## A sequential model of the resource-management API

Modelled from the spec: the external resource-management API is the
source of truth; it assigns a fresh, previously unused ID and secret to
every created project and service account.  Freshness is realised by a
counter; IDs and secrets encode the counter in their length, which makes
distinctness provable.  This model is used only to state the two-call
non-idempotence property of issuance. -/

/-- State of the modelled resource API: existing projects, existing
service accounts (paired with their project ID), and the freshness
counter. -/
structure World where
  projects : List Project
  accounts : List (String × ServiceAccount)
  nextId : Nat

/-- Modelled from the spec: a fresh opaque identifier, distinct for every
counter value (the counter is encoded in the string's length). -/
def mkFresh (tag : String) (n : Nat) : String :=
  tag ++ String.mk (List.replicate n 'x')

/-- Modelled from the spec: `GET /projects` name lookup — first project
whose name matches, `none` when absent. -/
def serverGetProject (w : World) (name : String) : Option Project :=
  w.projects.find? (fun p => p.name = name)

/-- Modelled from the spec: `POST /projects` creates a project with a
fresh ID and appends it. -/
def serverCreateProject (w : World) (name : String) : Project × World :=
  let p : Project := { id := mkFresh "proj-" w.nextId, name := name }
  (p, { w with projects := w.projects ++ [p], nextId := w.nextId + 1 })

/-- Modelled from the spec: `POST /projects/\x7bid\x7d/service_accounts`
creates a service account with a fresh ID and a fresh one-time-visible
secret, and appends it. -/
def serverCreateServiceAccount (w : World) (projectID saName : String) :
    ServiceAccount × World :=
  let sa : ServiceAccount :=
    { id := mkFresh "sa-" w.nextId
      name := saName
      createdAt := 0
      apiKey := { value := mkFresh "sk-" w.nextId
                  id := mkFresh "key-" w.nextId } }
  (sa, { w with accounts := w.accounts ++ [(projectID, sa)],
                nextId := w.nextId + 1 })

/-- `CreateAPIKey` run against the modelled resource API: get-or-create
the project, then create a new service account; returns the created
account (whose `apiKey.value` is the secret the Go code returns), the
expiry `now + expiration`, and the successor world. -/
def CreateAPIKeyW (expiration now : Int) (w : World)
    (projectName saName : String) : (ServiceAccount × Int) × World :=
  let pw : Project × World :=
    match serverGetProject w projectName with
    | some p => (p, w)
    | none => serverCreateProject w projectName
  let (sa, w2) := serverCreateServiceAccount pw.2 pw.1.id saName
  ((sa, now + expiration), w2)

/-! ## Concrete environments used by the witnesses -/

/-- A concrete project. -/
def demoProject : Project := { id := "proj-1", name := "default-project" }

/-- A concrete service account with a given ID and creation instant. -/
def demoSA (idv : String) (t : Int) : ServiceAccount :=
  { id := idv, name := "bob@example.com", createdAt := t
    apiKey := { value := "sk", id := "key" } }

/-- Cleanup environment: existing project, three accounts around the
cutoff instant 90 (`now = 100`, expiration 10), all deletions succeed. -/
def demoCleanupEnv : CleanupEnv :=
  { getProject := .ok (some demoProject)
    listServiceAccounts :=
      .ok [demoSA "old" 89, demoSA "edge" 90, demoSA "new" 95]
    deleteServiceAccount := fun _ => .ok ()
    now := 100 }

/-- Cleanup environment whose project lookup reports not-found. -/
def demoCleanupEnvAbsent : CleanupEnv :=
  { getProject := .ok none
    listServiceAccounts := .ok []
    deleteServiceAccount := fun _ => .ok ()
    now := 100 }

/-- Cleanup environment in which deleting the account `"bad"` fails while
every other deletion succeeds; the accounts `"old"`, `"bad"`, `"older"`
are all stale. -/
def demoCleanupEnvFail : CleanupEnv :=
  { getProject := .ok (some demoProject)
    listServiceAccounts :=
      .ok [demoSA "old" 80, demoSA "bad" 85, demoSA "older" 70]
    deleteServiceAccount := fun i =>
      if i = "bad" then .error "boom" else .ok ()
    now := 100 }

/-- Issuance environment with an existing project. -/
def demoIssueEnvFound : IssueEnv :=
  { getProject := .ok (some demoProject)
    createProject := .error "unused"
    createServiceAccount := fun _ _ => .ok (demoSA "sa-1" 50)
    now := 100 }

/-- Issuance environment with an absent project that gets created. -/
def demoIssueEnvAbsent : IssueEnv :=
  { getProject := .ok none
    createProject := .ok demoProject
    createServiceAccount := fun _ _ => .ok (demoSA "sa-2" 50)
    now := 100 }

/-! ## Cursor pagination (client/serviceaccount.go, project client)

The server is modelled as the stream of page responses it returns to the
successive page requests: `pages i` answers the `i`-th request.  The Go
loops (`for { ... }`) carry no bound of their own, so they are embedded
with explicit fuel counting requests: a `none` result means the loop did
not finish within `fuel` requests. -/

/-- A page response from the service-account listing
(struct `ListServiceAccountResponse`). -/
structure ListServiceAccountResponse where
  data : List ServiceAccount
  firstId : String
  lastId : String
  hasMore : Bool
  deriving DecidableEq, Repr

/-- A page response from the project listing
(struct `ListProjectResponse`). -/
structure ListProjectResponse where
  data : List Project
  firstId : String
  lastId : String
  hasMore : Bool
  deriving DecidableEq, Repr

/-- The pagination loop of `ListServiceAccounts` (client/serviceaccount.go):
request a page with the current cursor (`""` = no `after` parameter),
append its `data`, stop when `hasMore` is false, else continue with
cursor `lastId`.  Returns the concatenated accounts together with the
cursor sent on each request, in request order. -/
def ListServiceAccountsFrom (pages : Nat → ListServiceAccountResponse)
    (fuel idx : Nat) (after : String) :
    Option (List ServiceAccount × List String) :=
  match fuel with
  | 0 => none
  | fuel + 1 =>
    let resp := pages idx
    if resp.hasMore = false then
      some (resp.data, [after])
    else
      match ListServiceAccountsFrom pages fuel (idx + 1) resp.lastId with
      | none => none
      | some (accs, curs) => some (resp.data ++ accs, after :: curs)

/-- `ListServiceAccounts`: run the pagination loop from an absent cursor. -/
def ListServiceAccounts (pages : Nat → ListServiceAccountResponse)
    (fuel : Nat) : Option (List ServiceAccount × List String) :=
  ListServiceAccountsFrom pages fuel 0 ""

/-- The pagination loop of `listProjects` (project client): identical
shape over project pages. -/
def listProjectsFrom (pages : Nat → ListProjectResponse)
    (fuel idx : Nat) (after : String) :
    Option (List Project × List String) :=
  match fuel with
  | 0 => none
  | fuel + 1 =>
    let resp := pages idx
    if resp.hasMore = false then
      some (resp.data, [after])
    else
      match listProjectsFrom pages fuel (idx + 1) resp.lastId with
      | none => none
      | some (ps, curs) => some (resp.data ++ ps, after :: curs)

/-- `listProjects`: run the project pagination loop from an absent
cursor. -/
def listProjects (pages : Nat → ListProjectResponse) (fuel : Nat) :
    Option (List Project × List String) :=
  listProjectsFrom pages fuel 0 ""

/-- A service-account page server that always reports more pages. -/
def demoSAPagesEndless : Nat → ListServiceAccountResponse := fun _ =>
  { data := [], firstId := "", lastId := "cursor", hasMore := true }

/-- A two-page service-account server: page 0 has `hasMore = true` and
last ID `"a"`, page 1 ends the listing. -/
def demoSAPagesTwo : Nat → ListServiceAccountResponse := fun n =>
  if n = 0 then
    { data := [demoSA "a" 1], firstId := "a", lastId := "a", hasMore := true }
  else
    { data := [demoSA "b" 2], firstId := "b", lastId := "b", hasMore := false }

/-- A project page server that always reports more pages. -/
def demoProjPagesEndless : Nat → ListProjectResponse := fun _ =>
  { data := [], firstId := "", lastId := "cursor", hasMore := true }

/-- A single-page project server. -/
def demoProjPagesOne : Nat → ListProjectResponse := fun _ =>
  { data := [demoProject], firstId := "proj-1", lastId := "proj-1",
    hasMore := false }

end OpenAIKeyServer

namespace OpenAIKeyServer

/-! ## Theorems -/

/-- **C1.** The allow-list check returns allowed iff the email is in the
explicit user list, or the domain part of the email is non-empty, equals the
`hd` claim, and is in the allowed-domains list.  In particular an `hd`
mismatch or an empty domain is denied even when the textual domain is
allow-listed. -/
theorem isUserAllowed_iff_explicit_or_domain
    (users domains : List String) (email hd : String) :
    isUserAllowed users domains email hd = true ↔
      email ∈ users ∨
        (domainPart email ≠ "" ∧ domainPart email = hd ∧
          domainPart email ∈ domains) := by
  unfold isUserAllowed domainPart
  by_cases hu : email ∈ users
  · simp [hu]
  · simp only [hu, if_false]
    match h : email.splitOn "@" with
    | [] => simp [hu]
    | [a] => simp [hu]
    | [a, domain] =>
      by_cases h0 : domain = ""
      · simp [h0, hu]
      · by_cases hhd : domain = hd
        · by_cases hdom : domain ∈ domains
          · simp [h0, hhd, hdom, hu]
          · simp [h0, hhd, hdom, hu]
        · simp [h0, hhd, hu]
    | a :: b :: c :: rest => simp [hu]

/-- **C7.** Authorization over verified claims: the result is the
email-not-verified error iff `email_verified` is false; the not-allowed
error iff the email is verified but the allow-list check fails; and a
success iff the email is verified, the allow-list check passes, and the
returned pair is the configured default tenant name and the claims'
email. -/
theorem extractGoogleIDToken_cases (o : OIDC) (claims : GoogleIDTokenClaims) :
    (ExtractGoogleIDToken o (.ok claims) = .error .emailNotVerified ↔
      claims.emailVerified = false) ∧
    (ExtractGoogleIDToken o (.ok claims) = .error (.userNotAllowed claims.email) ↔
      claims.emailVerified = true ∧
        isUserAllowed o.allowedUsers o.allowedDomains claims.email claims.hd
          = false) ∧
    (∀ t e, ExtractGoogleIDToken o (.ok claims) = .ok (t, e) ↔
      claims.emailVerified = true ∧
        isUserAllowed o.allowedUsers o.allowedDomains claims.email claims.hd
          = true ∧
        t = o.defaultProjectName ∧ e = claims.email) := by
  unfold ExtractGoogleIDToken
  cases hv : claims.emailVerified <;>
    cases ha : isUserAllowed o.allowedUsers o.allowedDomains
        claims.email claims.hd <;>
      simp [hv, ha, eq_comm]

/-- **C9 counterexample.** The HTTP status 302 is not a 2xx status, yet
`doRequest` returns the raw body successfully, so a non-2xx response does
not always fail. -/
theorem doRequest_302_succeeds :
    doRequest 302 "moved" = .ok "moved" ∧ ¬(200 ≤ 302 ∧ 302 < 300) := by
  exact ⟨rfl, by decide⟩

/-- **C9 (amended).** A resource-API request fails exactly when the HTTP
status is at least 400, returning a structured error wrapping the numeric
status and the raw body; for any status below 400 the raw body is returned
successfully. -/
theorem doRequest_status_split (status : Nat) (body : String) :
    (400 ≤ status →
      doRequest status body = .error ⟨status, body⟩) ∧
    (status < 400 → doRequest status body = .ok body) := by
  refine ⟨fun h => ?_, fun h => ?_⟩
  · unfold doRequest
    rw [if_pos h]
  · unfold doRequest
    rw [if_neg (by omega)]

/-- Witness for `doRequest_status_split` at statuses 404 and 200. -/
theorem doRequest_status_split_witness :
    doRequest 404 "missing" = .error ⟨404, "missing"⟩ ∧
      doRequest 200 "body" = .ok "body" :=
  ⟨(doRequest_status_split 404 "missing").1 (by decide),
    (doRequest_status_split 200 "body").2 (by decide)⟩

/-- On a matched state cookie the handler's side-effect trace is exactly:
clear the `oauthstate` cookie with `MaxAge = -1`, then invoke the token
exchange with the request's code. -/
theorem handleOAuthCallback_matched_trace (o : OIDC) (env : CallbackEnv)
    (req : CallbackRequest) (hc : req.code ≠ "") (hs : req.state ≠ "")
    (hm : req.stateCookie = some req.state) :
    (HandleOAuthCallback o env req).2 =
      [Effect.setCookie "oauthstate" "" (-1),
       Effect.exchangeCall req.code] := by
  unfold HandleOAuthCallback
  rw [if_neg hc, if_neg hs, hm]
  simp only [ne_eq, not_true_eq_false, if_false, ite_false]
  cases env.exchange req.code with
  | retrieveError => rfl
  | fatalError e => rfl
  | ok it =>
    cases it with
    | none => rfl
    | some tok =>
      cases hE : ExtractGoogleIDToken o (env.verify tok) with
      | error e => simp [hE]
      | ok pr =>
        obtain ⟨pn, sn⟩ := pr
        cases hK : env.createAPIKey pn sn <;> simp [hE, hK]

/-- When the guards fail (missing code, missing state, missing cookie, or
a cookie/state mismatch) the handler performs no side effects. -/
theorem handleOAuthCallback_unmatched_trace (o : OIDC) (env : CallbackEnv)
    (req : CallbackRequest) (hm : req.stateCookie ≠ some req.state) :
    (HandleOAuthCallback o env req).2 = [] := by
  unfold HandleOAuthCallback
  by_cases hc : req.code = ""
  · rw [if_pos hc]
  · rw [if_neg hc]
    by_cases hs : req.state = ""
    · rw [if_pos hs]
    · rw [if_neg hs]
      cases hck : req.stateCookie with
      | none => rfl
      | some cv =>
        have : cv ≠ req.state := by
          intro h
          exact hm (hck.trans (congrArg some h))
        simp [this]

/-- **C2.** The token exchange is invoked only when the state cookie equals
the `state` query parameter bit-for-bit; on a present-but-mismatched cookie
the handler redirects to root with no side effect; and whenever they match
the state cookie is cleared with `MaxAge = -1` before the exchange (the
trace is exactly the cookie-clear followed by the exchange). -/
theorem callback_state_single_use (o : OIDC) (env : CallbackEnv)
    (req : CallbackRequest) :
    (∀ c, Effect.exchangeCall c ∈ (HandleOAuthCallback o env req).2 →
      req.stateCookie = some req.state) ∧
    (req.code ≠ "" → req.state ≠ "" → ∀ cv, req.stateCookie = some cv →
      cv ≠ req.state → HandleOAuthCallback o env req = (.redirectRoot, [])) ∧
    (req.code ≠ "" → req.state ≠ "" → req.stateCookie = some req.state →
      (HandleOAuthCallback o env req).2 =
        [Effect.setCookie "oauthstate" "" (-1),
         Effect.exchangeCall req.code]) := by
  refine ⟨?_, ?_, ?_⟩
  · intro c hmem
    by_cases hm : req.stateCookie = some req.state
    · exact hm
    · rw [handleOAuthCallback_unmatched_trace o env req hm] at hmem
      simp at hmem
  · intro hc hs cv hcv hne
    unfold HandleOAuthCallback
    rw [if_neg hc, if_neg hs, hcv]
    simp [hne]
  · exact handleOAuthCallback_matched_trace o env req

/-- Witness for `callback_state_single_use`: a matched request produces the
clear-cookie/exchange trace, and a mismatched one redirects to root. -/
theorem callback_state_single_use_witness :
    (HandleOAuthCallback demoOIDC demoCallbackEnv
        { code := "authcode", state := "st", stateCookie := some "st" }).2 =
      [Effect.setCookie "oauthstate" "" (-1),
       Effect.exchangeCall "authcode"] ∧
    HandleOAuthCallback demoOIDC demoCallbackEnv
        { code := "authcode", state := "st", stateCookie := some "other" } =
      (.redirectRoot, []) :=
  ⟨(callback_state_single_use demoOIDC demoCallbackEnv
        { code := "authcode", state := "st", stateCookie := some "st" }).2.2
      (by decide) (by decide) rfl,
   (callback_state_single_use demoOIDC demoCallbackEnv
        { code := "authcode", state := "st", stateCookie := some "other" }).2.1
      (by decide) (by decide) "other" rfl (by decide)⟩

/-- **C3 counterexample.** A callback carrying both a code and a state but
no state cookie is answered with a 400-class error ("State cookie not
found"), not with a redirect to root. -/
theorem callback_missing_cookie_is_error :
    HandleOAuthCallback demoOIDC demoCallbackEnv
        { code := "authcode", state := "st", stateCookie := none } =
      (.badRequest "State cookie not found", []) ∧
    CallbackResponse.badRequest "State cookie not found" ≠
      CallbackResponse.redirectRoot ∧
    "authcode" ≠ "" ∧ "st" ≠ "" := by
  refine ⟨rfl, by decide, by decide, by decide⟩

/-- **C3 (amended).** For a callback carrying both code and state: a
present-but-mismatched state cookie yields a redirect to root with no
error surfaced; a missing state cookie yields a 400-class error response
("State cookie not found") rather than a redirect. -/
theorem callback_cookie_missing_vs_mismatch (o : OIDC) (env : CallbackEnv)
    (req : CallbackRequest) (hc : req.code ≠ "") (hs : req.state ≠ "") :
    (req.stateCookie = none →
      HandleOAuthCallback o env req =
        (.badRequest "State cookie not found", [])) ∧
    (∀ cv, req.stateCookie = some cv → cv ≠ req.state →
      HandleOAuthCallback o env req = (.redirectRoot, [])) := by
  constructor
  · intro hnone
    unfold HandleOAuthCallback
    rw [if_neg hc, if_neg hs, hnone]
  · intro cv hcv hne
    unfold HandleOAuthCallback
    rw [if_neg hc, if_neg hs, hcv]
    simp [hne]

/-- Witness for `callback_cookie_missing_vs_mismatch` on concrete
requests. -/
theorem callback_cookie_missing_vs_mismatch_witness :
    HandleOAuthCallback demoOIDC demoCallbackEnv
        { code := "authcode", state := "st", stateCookie := none } =
      (.badRequest "State cookie not found", []) ∧
    HandleOAuthCallback demoOIDC demoCallbackEnv
        { code := "authcode", state := "st", stateCookie := some "zz" } =
      (.redirectRoot, []) :=
  ⟨(callback_cookie_missing_vs_mismatch demoOIDC demoCallbackEnv
        { code := "authcode", state := "st", stateCookie := none }
        (by decide) (by decide)).1 rfl,
   (callback_cookie_missing_vs_mismatch demoOIDC demoCallbackEnv
        { code := "authcode", state := "st", stateCookie := some "zz" }
        (by decide) (by decide)).2 "zz" rfl (by decide)⟩

/-- When every stale account's deletion succeeds, the sweep deletes, in
listing order, exactly the accounts strictly older than the cutoff and
reports no error. -/
theorem cleanupSweep_all_ok (deleteSA : String → Except String Unit)
    (cutoff : Int) (accounts : List ServiceAccount)
    (h : ∀ sa ∈ accounts, sa.createdAt < cutoff → deleteSA sa.id = .ok ()) :
    cleanupSweep deleteSA cutoff accounts =
      ((accounts.filter fun sa => decide (sa.createdAt < cutoff)).map
        (fun sa => sa.id), none) := by
  induction accounts with
  | nil => rfl
  | cons sa rest ih =>
    have ih' := ih (fun x hx hxc => h x (by simp [hx]) hxc)
    by_cases hst : sa.createdAt < cutoff
    · have hdel := h sa (by simp) hst
      simp [cleanupSweep, hst, hdel, ih']
    · simp [cleanupSweep, hst, ih']

/-- When the first failing deletion is at `bad` (with every stale account
before it deleted successfully), the sweep aborts there: it has deleted
exactly the stale accounts of the prefix and reports the failure.  No
hypothesis is needed about deletions after `bad` — they are not
attempted. -/
theorem cleanupSweep_abort (deleteSA : String → Except String Unit)
    (cutoff : Int) (pre : List ServiceAccount) (bad : ServiceAccount)
    (post : List ServiceAccount) (e : String)
    (hpre : ∀ sa ∈ pre, sa.createdAt < cutoff → deleteSA sa.id = .ok ())
    (hbad : bad.createdAt < cutoff)
    (hfail : deleteSA bad.id = .error e) :
    cleanupSweep deleteSA cutoff (pre ++ bad :: post) =
      ((pre.filter fun sa => decide (sa.createdAt < cutoff)).map
        (fun sa => sa.id), some e) := by
  induction pre with
  | nil => simp [cleanupSweep, hbad, hfail]
  | cons sa rest ih =>
    have ih' := ih (fun x hx hxc => hpre x (by simp [hx]) hxc)
    by_cases hst : sa.createdAt < cutoff
    · have hdel := hpre sa (by simp) hst
      simp [cleanupSweep, hst, hdel, ih']
    · simp [cleanupSweep, hst, ih']

/-- **C4.** For a tenant that does not exist, cleanup fails with the
tenant-not-found error; for an existing tenant whose deletions all
succeed, cleanup deletes exactly the listed service accounts whose
`createdAt` is strictly less than `now - expiration` — in particular an
account with `createdAt = now - expiration` is retained. -/
theorem cleanup_deletes_exactly_stale (expiration : Int) (env : CleanupEnv)
    (name : String) :
    (env.getProject = .ok none →
      CleanupAPIKey expiration env name = (.projectNotFound name, [])) ∧
    (∀ p accounts, env.getProject = .ok (some p) →
      env.listServiceAccounts = .ok accounts →
      (∀ sa ∈ accounts, sa.createdAt < env.now - expiration →
        env.deleteServiceAccount sa.id = .ok ()) →
      CleanupAPIKey expiration env name =
        (.ok, (accounts.filter fun sa =>
            decide (sa.createdAt < env.now - expiration)).map
          (fun sa => sa.id))) := by
  constructor
  · intro h
    simp [CleanupAPIKey, h]
  · intro p accounts hg hl hdel
    have hs := cleanupSweep_all_ok env.deleteServiceAccount
      (env.now - expiration) accounts hdel
    simp [CleanupAPIKey, hg, hl, hs]

/-- Witness for `cleanup_deletes_exactly_stale`: the missing tenant fails
with tenant-not-found, and with `now = 100`, expiration 10, cleanup
deletes the account created at 89 and retains those created at 90 (the
exact cutoff) and 95. -/
theorem cleanup_deletes_exactly_stale_witness :
    CleanupAPIKey 10 demoCleanupEnvAbsent "default-project" =
      (.projectNotFound "default-project", []) ∧
    CleanupAPIKey 10 demoCleanupEnv "default-project" = (.ok, ["old"]) :=
  ⟨(cleanup_deletes_exactly_stale 10 demoCleanupEnvAbsent
      "default-project").1 rfl,
   ((cleanup_deletes_exactly_stale 10 demoCleanupEnv "default-project").2
      demoProject [demoSA "old" 89, demoSA "edge" 90, demoSA "new" 95]
      rfl rfl (fun _ _ _ => rfl)).trans (by decide)⟩

/-- **C8.** When a deletion fails, the sweep aborts at the first failing
deletion and propagates that error; the stale accounts before it in the
listing stay deleted (no rollback), and nothing after the failing account
is attempted — the conclusion needs no hypothesis about the remaining
accounts' deletion behaviour. -/
theorem cleanup_aborts_on_first_failure (expiration : Int)
    (env : CleanupEnv) (name : String) (p : Project)
    (pre : List ServiceAccount) (bad : ServiceAccount)
    (post : List ServiceAccount) (e : String)
    (hg : env.getProject = .ok (some p))
    (hl : env.listServiceAccounts = .ok (pre ++ bad :: post))
    (hpre : ∀ sa ∈ pre, sa.createdAt < env.now - expiration →
      env.deleteServiceAccount sa.id = .ok ())
    (hbad : bad.createdAt < env.now - expiration)
    (hfail : env.deleteServiceAccount bad.id = .error e) :
    CleanupAPIKey expiration env name =
      (.deleteError e,
        (pre.filter fun sa =>
            decide (sa.createdAt < env.now - expiration)).map
          (fun sa => sa.id)) := by
  have hs := cleanupSweep_abort env.deleteServiceAccount
    (env.now - expiration) pre bad post e hpre hbad hfail
  simp [CleanupAPIKey, hg, hl, hs]

/-- Witness for `cleanup_aborts_on_first_failure`: with three stale
accounts `old`, `bad`, `older` and deletion failing on `bad`, cleanup
reports the failure, `old` stays deleted, and `older` is untouched. -/
theorem cleanup_aborts_on_first_failure_witness :
    CleanupAPIKey 10 demoCleanupEnvFail "default-project" =
      (.deleteError "boom", ["old"]) :=
  (cleanup_aborts_on_first_failure 10 demoCleanupEnvFail "default-project"
      demoProject [demoSA "old" 80] (demoSA "bad" 85) [demoSA "older" 70]
      "boom" rfl rfl
      (by
        intro sa hsa _
        simp only [List.mem_singleton] at hsa
        subst hsa
        rfl)
      (by decide) rfl).trans (by decide)

/-- The fresh-identifier encoding puts the counter into the string's
length. -/
theorem mkFresh_length (tag : String) (n : Nat) :
    (mkFresh tag n).length = tag.length + n := by
  simp [mkFresh]

/-- Fresh identifiers with the same tag but different counters differ. -/
theorem mkFresh_ne (tag : String) {a b : Nat} (h : a ≠ b) :
    mkFresh tag a ≠ mkFresh tag b := by
  intro he
  have hl := congrArg String.length he
  rw [mkFresh_length, mkFresh_length] at hl
  omega

/-- **C5.** Issuance resolves the tenant via `getProject` and creates the
project only when it is absent (the call trace contains `createProject`
exactly in the absent case), always creates a new service account, and
returns the new credential's secret with `expiresAt = now + expiration`;
against the modelled resource API, two successive issue calls for the
same tenant and principal yield service accounts with distinct IDs and
distinct secret values — issuance is not idempotent. -/
theorem createAPIKey_issuance (expiration : Int) (env : IssueEnv)
    (projectName saName : String) :
    (∀ p sa, env.getProject = .ok (some p) →
      env.createServiceAccount p.id saName = .ok sa →
      CreateAPIKey expiration env projectName saName =
        (.ok (sa.apiKey.value, env.now + expiration),
         [.getProjectCall projectName, .createSACall p.id saName])) ∧
    (∀ p sa, env.getProject = .ok none → env.createProject = .ok p →
      env.createServiceAccount p.id saName = .ok sa →
      CreateAPIKey expiration env projectName saName =
        (.ok (sa.apiKey.value, env.now + expiration),
         [.getProjectCall projectName, .createProjectCall projectName,
          .createSACall p.id saName])) ∧
    (∀ (t : Int) (w : World) (n pr : String),
      (CreateAPIKeyW expiration t w n pr).1.1.id ≠
        (CreateAPIKeyW expiration t
          (CreateAPIKeyW expiration t w n pr).2 n pr).1.1.id ∧
      (CreateAPIKeyW expiration t w n pr).1.1.apiKey.value ≠
        (CreateAPIKeyW expiration t
          (CreateAPIKeyW expiration t w n pr).2 n pr).1.1.apiKey.value) := by
  refine ⟨?_, ?_, ?_⟩
  · intro p sa hg hsa
    simp [CreateAPIKey, hg, hsa]
  · intro p sa hg hp hsa
    simp [CreateAPIKey, hg, hp, hsa]
  · intro t w n pr
    cases hfind : w.projects.find? (fun p => p.name = n) with
    | some p =>
      constructor <;>
        simp [CreateAPIKeyW, serverGetProject, serverCreateServiceAccount,
          hfind] <;>
        exact mkFresh_ne _ (by omega)
    | none =>
      have h2 : (w.projects ++
          [{ id := mkFresh "proj-" w.nextId, name := n : Project }]).find?
            (fun p => p.name = n) = some
              { id := mkFresh "proj-" w.nextId, name := n } := by
        rw [List.find?_append, hfind]
        simp
      constructor <;>
        simp [CreateAPIKeyW, serverGetProject, serverCreateProject,
          serverCreateServiceAccount, hfind, h2] <;>
        exact mkFresh_ne _ (by omega)

/-- Witness for `createAPIKey_issuance`: concrete issuance against an
existing and an absent project, and two successive issue calls in the
empty world returning accounts with distinct IDs. -/
theorem createAPIKey_issuance_witness :
    CreateAPIKey 10 demoIssueEnvFound "default-project" "bob@example.com" =
      (.ok ("sk", 110),
       [.getProjectCall "default-project",
        .createSACall "proj-1" "bob@example.com"]) ∧
    CreateAPIKey 10 demoIssueEnvAbsent "default-project" "bob@example.com" =
      (.ok ("sk", 110),
       [.getProjectCall "default-project",
        .createProjectCall "default-project",
        .createSACall "proj-1" "bob@example.com"]) ∧
    (CreateAPIKeyW 10 0 ⟨[], [], 0⟩ "teamA" "bob@example.com").1.1.id ≠
      (CreateAPIKeyW 10 0
        (CreateAPIKeyW 10 0 ⟨[], [], 0⟩ "teamA" "bob@example.com").2
        "teamA" "bob@example.com").1.1.id :=
  ⟨((createAPIKey_issuance 10 demoIssueEnvFound "default-project"
        "bob@example.com").1 demoProject (demoSA "sa-1" 50)
      rfl rfl).trans rfl,
   ((createAPIKey_issuance 10 demoIssueEnvAbsent "default-project"
        "bob@example.com").2.1 demoProject (demoSA "sa-2" 50)
      rfl rfl rfl).trans rfl,
   ((createAPIKey_issuance 10 demoIssueEnvFound "default-project"
        "bob@example.com").2.2 0 ⟨[], [], 0⟩ "teamA" "bob@example.com").1⟩

/-- Pagination loop, general position: when the `k` pages answered from
request `idx` on all report `hasMore = true` and the next page ends the
listing, the loop (with enough fuel) returns the concatenation of the
`k + 1` pages' data, sending the given cursor first and then each page's
`lastId` as the next cursor. -/
theorem listSAFrom_pages (pages : Nat → ListServiceAccountResponse) :
    ∀ (k idx : Nat) (after : String) (fuel : Nat),
      (∀ j ∈ List.range' idx k, (pages j).hasMore = true) →
      (pages (idx + k)).hasMore = false →
      k < fuel →
      ListServiceAccountsFrom pages fuel idx after =
        some (((List.range' idx (k + 1)).map fun i => (pages i).data).flatten,
          after :: (List.range' idx k).map fun i => (pages i).lastId) := by
  intro k
  induction k with
  | zero =>
    intro idx after fuel hmid hlast hf
    match fuel, hf with
    | fuel + 1, _ =>
      have hl : (pages idx).hasMore = false := by simpa using hlast
      simp [ListServiceAccountsFrom, hl, List.range'_succ]
  | succ k ih =>
    intro idx after fuel hmid hlast hf
    match fuel, hf with
    | fuel + 1, hf =>
      have h0 : (pages idx).hasMore = true :=
        hmid idx (by rw [List.mem_range'_1]; omega)
      have hrec := ih (idx + 1) (pages idx).lastId fuel
        (fun j hj => hmid j (by rw [List.mem_range'_1] at hj ⊢; omega))
        (by rw [show idx + 1 + k = idx + (k + 1) from by omega]
            exact hlast)
        (by omega)
      simp [ListServiceAccountsFrom, h0, hrec, List.range'_succ]

/-- If every page response reports `hasMore = true`, the loop exhausts any
amount of fuel without returning. -/
theorem listSAFrom_endless (pages : Nat → ListServiceAccountResponse)
    (hall : ∀ n, (pages n).hasMore = true) :
    ∀ (fuel idx : Nat) (after : String),
      ListServiceAccountsFrom pages fuel idx after = none := by
  intro fuel
  induction fuel with
  | zero => intro idx after; rfl
  | succ fuel ih =>
    intro idx after
    simp [ListServiceAccountsFrom, hall idx, ih (idx + 1)]

/-- If some page response in reach of the fuel reports `hasMore = false`,
the loop returns. -/
theorem listSAFrom_stops (pages : Nat → ListServiceAccountResponse) :
    ∀ (fuel idx : Nat) (after : String) (N : Nat),
      idx ≤ N → N < idx + fuel → (pages N).hasMore = false →
      (ListServiceAccountsFrom pages fuel idx after).isSome = true := by
  intro fuel
  induction fuel with
  | zero => intro idx after N h1 h2 _; omega
  | succ fuel ih =>
    intro idx after N h1 h2 hN
    by_cases h0 : (pages idx).hasMore = false
    · simp [ListServiceAccountsFrom, h0]
    · have hne : idx ≠ N := fun he => h0 (he ▸ hN)
      have hrec := ih (idx + 1) (pages idx).lastId N (by omega) (by omega) hN
      simp only [ListServiceAccountsFrom]
      rw [if_neg h0]
      cases hr : ListServiceAccountsFrom pages fuel (idx + 1)
          (pages idx).lastId with
      | none => rw [hr] at hrec; simp at hrec
      | some pr => simp

/-- Project pagination loop: same endless-server lemma. -/
theorem listProjFrom_endless (pages : Nat → ListProjectResponse)
    (hall : ∀ n, (pages n).hasMore = true) :
    ∀ (fuel idx : Nat) (after : String),
      listProjectsFrom pages fuel idx after = none := by
  intro fuel
  induction fuel with
  | zero => intro idx after; rfl
  | succ fuel ih =>
    intro idx after
    simp [listProjectsFrom, hall idx, ih (idx + 1)]

/-- Project pagination loop: same termination lemma. -/
theorem listProjFrom_stops (pages : Nat → ListProjectResponse) :
    ∀ (fuel idx : Nat) (after : String) (N : Nat),
      idx ≤ N → N < idx + fuel → (pages N).hasMore = false →
      (listProjectsFrom pages fuel idx after).isSome = true := by
  intro fuel
  induction fuel with
  | zero => intro idx after N h1 h2 _; omega
  | succ fuel ih =>
    intro idx after N h1 h2 hN
    by_cases h0 : (pages idx).hasMore = false
    · simp [listProjectsFrom, h0]
    · have hne : idx ≠ N := fun he => h0 (he ▸ hN)
      have hrec := ih (idx + 1) (pages idx).lastId N (by omega) (by omega) hN
      simp only [listProjectsFrom]
      rw [if_neg h0]
      cases hr : listProjectsFrom pages fuel (idx + 1)
          (pages idx).lastId with
      | none => rw [hr] at hrec; simp at hrec
      | some pr => simp

/-- **C6.** Against a server whose first `k` page responses report
`hasMore = true` and whose page `k` ends the listing (`N = k + 1` pages),
`ListServiceAccounts` issues exactly `N` requests — the returned cursor
list has one entry per request — with the first request carrying no
cursor and each later request carrying the previous page's `lastId`, and
returns the pages' `data` concatenated in page order with no
deduplication or reordering. -/
theorem listServiceAccounts_pagination
    (pages : Nat → ListServiceAccountResponse) (k fuel : Nat)
    (hmid : ∀ j, j < k → (pages j).hasMore = true)
    (hlast : (pages k).hasMore = false)
    (hfuel : k < fuel) :
    ListServiceAccounts pages fuel =
      some (((List.range (k + 1)).map fun i => (pages i).data).flatten,
        "" :: (List.range k).map fun i => (pages i).lastId) ∧
    ("" :: (List.range k).map fun i => (pages i).lastId).length = k + 1 := by
  constructor
  · have h := listSAFrom_pages pages k 0 "" fuel
      (fun j hj => hmid j (by rw [List.mem_range'_1] at hj; omega))
      (by simpa using hlast) hfuel
    rw [ListServiceAccounts, h, List.range_eq_range' (k + 1),
      List.range_eq_range' k]
  · simp

/-- Witness for `listServiceAccounts_pagination` on the concrete two-page
server: two requests, the second carrying cursor `"a"` (page 0's last
ID), and the two pages' accounts concatenated in order. -/
theorem listServiceAccounts_pagination_witness :
    ListServiceAccounts demoSAPagesTwo 2 =
      some ([demoSA "a" 1, demoSA "b" 2], ["", "a"]) ∧
    (["", "a"] : List String).length = 2 :=
  ⟨((listServiceAccounts_pagination demoSAPagesTwo 1 2 (by decide) (by decide)
      (by decide)).1).trans (by decide),
   rfl⟩

/-- **C10.** The pagination loops of the service-account listing and of
the project listing terminate exactly when the server's response stream
eventually reports `hasMore = false`: against a server whose every
response has `hasMore = true` the loop returns nothing at any fuel (the
client imposes no bound of its own on the number of pages, so the Go loop
never returns), while a `hasMore = false` response at position `N` makes
the loop return once the fuel exceeds `N`. -/
theorem pagination_terminates_iff_hasMore
    (pagesSA : Nat → ListServiceAccountResponse)
    (pagesP : Nat → ListProjectResponse) :
    ((∀ n, (pagesSA n).hasMore = true) →
      ∀ fuel, ListServiceAccounts pagesSA fuel = none) ∧
    (∀ N, (pagesSA N).hasMore = false →
      ∀ fuel, N < fuel → (ListServiceAccounts pagesSA fuel).isSome = true) ∧
    ((∀ n, (pagesP n).hasMore = true) →
      ∀ fuel, listProjects pagesP fuel = none) ∧
    (∀ N, (pagesP N).hasMore = false →
      ∀ fuel, N < fuel → (listProjects pagesP fuel).isSome = true) := by
  refine ⟨?_, ?_, ?_, ?_⟩
  · intro hall fuel
    exact listSAFrom_endless pagesSA hall fuel 0 ""
  · intro N hN fuel hfuel
    exact listSAFrom_stops pagesSA fuel 0 "" N (by omega) (by omega) hN
  · intro hall fuel
    exact listProjFrom_endless pagesP hall fuel 0 ""
  · intro N hN fuel hfuel
    exact listProjFrom_stops pagesP fuel 0 "" N (by omega) (by omega) hN

/-- Witness for `pagination_terminates_iff_hasMore` on concrete servers:
the endless servers make both listings return nothing at fuel 5, and a
closing page at position 0 makes both return at fuel 1. -/
theorem pagination_terminates_iff_hasMore_witness :
    ListServiceAccounts demoSAPagesEndless 5 = none ∧
    (ListServiceAccounts demoSAPagesTwo 2).isSome = true ∧
    listProjects demoProjPagesEndless 5 = none ∧
    (listProjects demoProjPagesOne 1).isSome = true :=
  ⟨(pagination_terminates_iff_hasMore demoSAPagesEndless
      demoProjPagesEndless).1 (fun _ => rfl) 5,
   (pagination_terminates_iff_hasMore demoSAPagesTwo
      demoProjPagesEndless).2.1 1 rfl 2 (by decide),
   (pagination_terminates_iff_hasMore demoSAPagesEndless
      demoProjPagesEndless).2.2.1 (fun _ => rfl) 5,
   (pagination_terminates_iff_hasMore demoSAPagesEndless
      demoProjPagesOne).2.2.2 0 rfl 1 (by decide)⟩

end OpenAIKeyServer
